import Mathlib

/-!
Verification of the zstd HTTP filter (src/lib/src/ZstdFilter.h,
src/lib/src/ZstdFilter.cc) of the drogon fork.

The filter wraps the external zstd library: one-shot compression and
decompression (`compressData`, `decompressData`), streaming variants
(`compressStream`, `decompressStream`), duplicated "advanced" variants
with an explicit context (`advancedCompressData`, `advancedDecompressData`,
`advancedCompressStream`, `advancedDecompressStream`), and HTTP response
gating (`shouldCompress`, the response lambda installed by `doFilter`).

Bytes are modelled as natural numbers, payloads and frames as byte lists,
and C++ exceptions as `Except String`.  The zstd primitives themselves are
not part of this repository; they are modelled as a record of functions
(`ZstdLib`) together with the contracts the zstd API documents
(`ZstdSpec`), and a small executable codec (`toyLib`) realises those
contracts for concrete evaluations.
-/

namespace ZstdFilter

/-- A byte of a payload or compressed frame. -/
abbrev Byte := Nat

/-- Result of the content-size oracle `ZSTD_getFrameContentSize`:
either the frame header declares the decompressed size (`KnownSize n`),
or the sentinel `ZSTD_CONTENTSIZE_UNKNOWN` (`UnknownSize`),
or the sentinel `ZSTD_CONTENTSIZE_ERROR` (`InvalidFrame`). -/
inductive SizeHint where
  | KnownSize (n : Nat)
  | UnknownSize
  | InvalidFrame
deriving DecidableEq, Repr

/-- Modelled from the spec: the one-shot primitives of the underlying
block-compression library (zstd), which is an external dependency and not
part of this repository.  `compress cap src lvl` models
`ZSTD_compress(dst, cap, src, srcSize, lvl)` (and equivalently
`ZSTD_compressCCtx` with a fresh context) returning the bytes written or an
error; `decompress cap src` models `ZSTD_decompress(dst, cap, src, srcSize)`
(and `ZSTD_decompressDCtx`); `getFrameContentSize` is the content-size
oracle; `compressBound` is `ZSTD_compressBound`. -/
structure ZstdLib where
  compressBound : Nat → Nat
  compress : Nat → List Byte → Int → Except String (List Byte)
  getFrameContentSize : List Byte → SizeHint
  decompress : Nat → List Byte → Except String (List Byte)

/-- The fixed compression level of the filter
(`static constexpr int COMPRESSION_LEVEL = 3`). -/
def COMPRESSION_LEVEL : Int := 3

/-- Embedding of `ZstdFilter::compressData` (ZstdFilter.cc lines 77-93):
allocate `ZSTD_compressBound(data.size())` bytes, compress once at
`COMPRESSION_LEVEL`, throw `Compression error: ...` on a codec error,
otherwise trim the buffer to the produced size (the primitive returns
exactly the written bytes). -/
def compressData (lib : ZstdLib) (data : List Byte) : Except String (List Byte) :=
  match lib.compress (lib.compressBound data.length) data COMPRESSION_LEVEL with
  | .error e => .error ("Compression error: " ++ e)
  | .ok c => .ok c

/-- Embedding of `ZstdFilter::decompressData` (ZstdFilter.cc lines 95-117):
query the content-size oracle; both sentinel results raise the same
`Invalid compressed data` error; otherwise allocate exactly the reported
size, decompress once, throw `Decompression error: ...` on a codec error,
otherwise return the produced bytes. -/
def decompressData (lib : ZstdLib) (data : List Byte) : Except String (List Byte) :=
  match lib.getFrameContentSize data with
  | .UnknownSize => .error "Invalid compressed data"
  | .InvalidFrame => .error "Invalid compressed data"
  | .KnownSize rSize =>
    match lib.decompress rSize data with
    | .error e => .error ("Decompression error: " ++ e)
    | .ok d => .ok d

/-- Embedding of `ZstdFilter::advancedCompressData` (ZstdFilter.cc lines
207-235) together with its context accounting: the second component counts
the `ZSTD_freeCCtx` calls performed on the taken path.  `createOk` is
whether `ZSTD_createCCtx` succeeded; on failure the function throws before
any context exists.  The context is freed before the error check, so both
the error and the success path free it exactly once. -/
def advancedCompressDataRun (lib : ZstdLib) (createOk : Bool) (data : List Byte) :
    Except String (List Byte) × Nat :=
  if createOk then
    match lib.compress (lib.compressBound data.length) data COMPRESSION_LEVEL with
    | .error e => (.error ("Compression error: " ++ e), 1)
    | .ok c => (.ok c, 1)
  else (.error "Failed to create ZSTD compression context", 0)

/-- Embedding of `ZstdFilter::advancedDecompressData` (ZstdFilter.cc lines
237-271) with context accounting: the second component counts the
`ZSTD_freeDCtx` calls on the taken path.  Unlike `decompressData`, the two
oracle sentinels raise distinct errors, and each such path frees the
context before throwing. -/
def advancedDecompressDataRun (lib : ZstdLib) (createOk : Bool) (data : List Byte) :
    Except String (List Byte) × Nat :=
  if createOk then
    match lib.getFrameContentSize data with
    | .InvalidFrame => (.error "Invalid data for decompression", 1)
    | .UnknownSize => (.error "Original size unknown", 1)
    | .KnownSize capacity =>
      match lib.decompress capacity data with
      | .error e => (.error ("Decompression error: " ++ e), 1)
      | .ok d => (.ok d, 1)
  else (.error "Failed to create ZSTD decompression context", 0)

/-- The value `advancedCompressData` returns when context creation
succeeds (the normal case). -/
def advancedCompressData (lib : ZstdLib) (data : List Byte) : Except String (List Byte) :=
  (advancedCompressDataRun lib true data).1

/-- The value `advancedDecompressData` returns when context creation
succeeds (the normal case). -/
def advancedDecompressData (lib : ZstdLib) (data : List Byte) : Except String (List Byte) :=
  (advancedDecompressDataRun lib true data).1

/-- The successful payload of a fallible computation, `none` on error. -/
def okPart {α : Type} : Except String α → Option α
  | .ok a => some a
  | .error _ => none

/-- Modelled from the spec: the contracts of the zstd one-shot primitives
that the filter relies on.  Compression at a destination capacity of at
least `ZSTD_compressBound` succeeds (the bound never underestimates, for
any level) and writes at most the capacity; every produced frame embeds
the exact original length in its header, and decompressing it at that
capacity returns the original payload; one-shot decompression validates
the declared content size, so a success on a frame whose header declares
size `n` produces exactly `n` bytes. -/
structure ZstdSpec (lib : ZstdLib) : Prop where
  compress_succeeds : ∀ cap data lvl, lib.compressBound data.length ≤ cap →
      (okPart (lib.compress cap data lvl)).isSome = true
  compress_len : ∀ cap data lvl frame, lib.compress cap data lvl = .ok frame →
      frame.length ≤ cap
  compress_size : ∀ cap data lvl frame, lib.compress cap data lvl = .ok frame →
      lib.getFrameContentSize frame = .KnownSize data.length
  compress_roundtrip : ∀ cap data lvl frame, lib.compress cap data lvl = .ok frame →
      lib.decompress data.length frame = .ok data
  decompress_exact : ∀ cap src out n, lib.decompress cap src = .ok out →
      lib.getFrameContentSize src = .KnownSize n → out.length = n

/-- A concrete executable codec satisfying `ZstdSpec`, used to evaluate
the embedded filter functions on explicit inputs: a frame is the payload
length followed by the raw payload bytes. -/
def toyCompress (cap : Nat) (data : List Byte) (_lvl : Int) : Except String (List Byte) :=
  if data.length + 1 ≤ cap then .ok (data.length :: data)
  else .error "Destination buffer is too small"

/-- Content-size oracle of the toy codec: the leading byte declares the
payload length; the empty frame is invalid. -/
def toyOracle : List Byte → SizeHint
  | [] => .InvalidFrame
  | n :: _ => .KnownSize n

/-- One-shot decompressor of the toy codec: succeeds exactly when the body
length matches the declared length and fits the destination capacity. -/
def toyDecompress : Nat → List Byte → Except String (List Byte)
  | _, [] => .error "Unknown frame descriptor"
  | cap, n :: rest =>
    if rest.length = n ∧ n ≤ cap then .ok rest
    else .error "Corrupted block detected"

/-- The toy codec packaged as a `ZstdLib`. -/
def toyLib : ZstdLib where
  compressBound n := n + 1
  compress := toyCompress
  getFrameContentSize := toyOracle
  decompress := toyDecompress

/-- A codec whose oracle reports `UnknownSize` on the empty input and
`InvalidFrame` otherwise, used to exercise the sentinel error paths of the
one-shot decompressors. -/
def toyLibU : ZstdLib where
  compressBound n := n + 1
  compress := toyCompress
  getFrameContentSize f := match f with
    | [] => .UnknownSize
    | _ => .InvalidFrame
  decompress := fun _ _ => .error "Unsupported"

/-- The toy codec honours every contract of `ZstdSpec`. -/
theorem toyLib_spec : ZstdSpec toyLib := by
  constructor
  · intro cap data lvl h
    simp only [toyLib] at h
    simp only [toyLib, toyCompress]
    rw [if_pos h]
    rfl
  · intro cap data lvl frame h
    simp only [toyLib, toyCompress] at h
    by_cases hc : data.length + 1 ≤ cap
    · rw [if_pos hc] at h
      cases h
      simpa using hc
    · rw [if_neg hc] at h
      cases h
  · intro cap data lvl frame h
    simp only [toyLib, toyCompress] at h
    by_cases hc : data.length + 1 ≤ cap
    · rw [if_pos hc] at h
      cases h
      rfl
    · rw [if_neg hc] at h
      cases h
  · intro cap data lvl frame h
    simp only [toyLib, toyCompress] at h
    by_cases hc : data.length + 1 ≤ cap
    · rw [if_pos hc] at h
      cases h
      simp [toyLib, toyDecompress]
    · rw [if_neg hc] at h
      cases h
  · intro cap src out n h hn
    match src, h, hn with
    | m :: rest, h, hn =>
      simp only [toyLib, toyOracle, SizeHint.KnownSize.injEq] at hn
      subst hn
      simp only [toyLib, toyDecompress] at h
      by_cases hc : rest.length = m ∧ m ≤ cap
      · rw [if_pos hc] at h
        cases h
        exact hc.1
      · rw [if_neg hc] at h
        cases h

/-- Content type of an HTTP response, as compared by
`ZstdFilter::shouldCompress` against the three compressible drogon
constants; every other drogon content type is `CT_OTHER`. -/
inductive ContentType where
  | CT_APPLICATION_JSON
  | CT_TEXT_PLAIN
  | CT_TEXT_HTML
  | CT_OTHER (code : Nat)
deriving DecidableEq, Repr

/-- The parts of a drogon HTTP response the filter reads and writes:
content type, body bytes, and the appended headers. -/
structure HttpResponse where
  contentType : ContentType
  body : List Byte
  headers : List (String × String)
deriving DecidableEq, Repr

/-- Embedding of the response overload of `ZstdFilter::shouldCompress`
(ZstdFilter.cc lines 119-127): content type is JSON, plain text or HTML,
and the body is strictly larger than 1024 bytes. -/
def shouldCompress (resp : HttpResponse) : Bool :=
  (resp.contentType == ContentType.CT_APPLICATION_JSON
      || resp.contentType == ContentType.CT_TEXT_PLAIN
      || resp.contentType == ContentType.CT_TEXT_HTML)
    && decide (1024 < resp.body.length)

/-- Embedding of the response-side callback installed by
`ZstdFilter::doFilter` (ZstdFilter.cc lines 53-74): when `shouldCompress`
holds and the body is non-empty, try to compress it; on success replace the
body and append a `Content-Encoding: zstd` header; on a compression error
deliver the response unchanged. -/
def doFilterResponse (lib : ZstdLib) (resp : HttpResponse) : HttpResponse :=
  if shouldCompress resp then
    if resp.body.isEmpty then resp
    else
      match compressData lib resp.body with
      | .ok compressed =>
        { resp with
          body := compressed
          headers := resp.headers ++ [("Content-Encoding", "zstd")] }
      | .error _ => resp
  else resp

/-- The response transformation as the claim states it: the body is
replaced by its compressed form and a `Content-Encoding: zstd` header added
exactly when the content type is JSON, plain text or HTML, the body is
strictly larger than 1024 bytes, and compression succeeds; in every other
case the response is unchanged. -/
def claimFilterResponse (lib : ZstdLib) (resp : HttpResponse) : HttpResponse :=
  if (resp.contentType = ContentType.CT_APPLICATION_JSON
        ∨ resp.contentType = ContentType.CT_TEXT_PLAIN
        ∨ resp.contentType = ContentType.CT_TEXT_HTML)
      ∧ 1024 < resp.body.length then
    match compressData lib resp.body with
    | .ok compressed =>
      { resp with
        body := compressed
        headers := resp.headers ++ [("Content-Encoding", "zstd")] }
    | .error _ => resp
  else resp

/-- Result of the inner `while (inputBuffer.pos < inputBuffer.size)` loop
of the streaming functions: loop still running when the fuel ran out
(`ranOut`), a codec-primitive error (`err`), or all input of the chunk
consumed (`okDone`); `sink` is everything written to the output stream so
far. -/
inductive InnerRes (σ : Type) where
  | ranOut (sink : List Byte)
  | err (msg : String) (sink : List Byte)
  | okDone (st : σ) (sink : List Byte)

/-- One inner-loop iteration calls the incremental primitive on the
unconsumed part of the input buffer with the output buffer position reset;
the primitive returns the evolved context state, the bytes produced into
the output buffer, and how many input bytes it consumed.  `fuel` bounds the
number of iterations observed (the C++ loop can run forever on a primitive
that never consumes input). -/
def innerRun {σ : Type} (step : σ → List Byte → Except String (σ × List Byte × Nat)) :
    Nat → σ → List Byte → List Byte → InnerRes σ
  | _, st, [], sink => .okDone st sink
  | 0, _, _ :: _, sink => .ranOut sink
  | fuel + 1, st, b :: rest, sink =>
    match step st (b :: rest) with
    | .error e => .err e sink
    | .ok (st2, produced, consumed) =>
      innerRun step fuel st2 ((b :: rest).drop consumed) (sink ++ produced)

/-- Incremental compression primitive used by `compressStream`
(ZSTD_compressStream2 with ZSTD_e_continue) and `advancedCompressStream`
(ZSTD_compressStream): initial context state, per-call step, and the single
final ZSTD_endStream call the source makes. -/
structure CStreamPrim (σ : Type) where
  init : σ
  step : σ → List Byte → Except String (σ × List Byte × Nat)
  finish : σ → Except String (List Byte)

/-- Incremental decompression primitive used by `decompressStream` and
`advancedDecompressStream` (ZSTD_decompressStream): initial context state
and per-call step. -/
structure DStreamPrim (σ : Type) where
  init : σ
  step : σ → List Byte → Except String (σ × List Byte × Nat)

/-- Observable outcome of one streaming operation: context creation
failed (throw before any context exists), the loop never terminated (no
exit path taken), an exception thrown carrying the count of context
releases on that path, or the function body completed.  `sink` is the
content of the local output stream, `ret` the value the function returns
to its caller, and `frees` the number of context releases. -/
inductive StreamOutcome where
  | createFailed
  | diverged (sink : List Byte)
  | threw (msg : String) (sink : List Byte) (frees : Nat)
  | done (sink : List Byte) (ret : Option (List Byte)) (frees : Nat)
deriving DecidableEq, Repr

/-- Outer `while (input.good())` loop of `compressStream` (ZstdFilter.cc
lines 145-159) followed by the epilogue (lines 161-169): each chunk is one
successful read, the inner loop drains it; at end of input a single
`ZSTD_endStream` call produces the final bytes, the context is freed, and
the function falls off the end without a return statement, so it completes
without handing the accumulated sink to the caller (`ret` is `none`). -/
def outerCRun {σ : Type} (prim : CStreamPrim σ) :
    List (List Byte) → σ → List Byte → StreamOutcome
  | [], st, sink =>
    match prim.finish st with
    | .error e => .threw ("Compression error: " ++ e) sink 1
    | .ok produced => .done (sink ++ produced) none 1
  | c :: rest, st, sink =>
    match innerRun prim.step (c.length + 1) st c sink with
    | .ranOut sink2 => .diverged sink2
    | .err e sink2 => .threw ("Compression error: " ++ e) sink2 1
    | .okDone st2 sink2 => outerCRun prim rest st2 sink2

/-- Embedding of `ZstdFilter::compressStream` (ZstdFilter.cc lines
129-170): create the context (throwing with nothing to free when creation
fails), then run the chunk loop and the finalisation epilogue. -/
def compressStream {σ : Type} (prim : CStreamPrim σ) (createOk : Bool)
    (chunks : List (List Byte)) : StreamOutcome :=
  if createOk then outerCRun prim chunks prim.init [] else .createFailed

/-- Outer loop of `decompressStream` (ZstdFilter.cc lines 188-202) and its
epilogue (lines 204-205): when end of input is reached the context is
freed and the function falls off the end — the decoder state (which alone
knows whether the frame was complete) is dropped without any truncation
check, and no value is returned. -/
def outerDRun {σ : Type} (prim : DStreamPrim σ) :
    List (List Byte) → σ → List Byte → StreamOutcome
  | [], _, sink => .done sink none 1
  | c :: rest, st, sink =>
    match innerRun prim.step (c.length + 1) st c sink with
    | .ranOut sink2 => .diverged sink2
    | .err e sink2 => .threw ("Decompression error: " ++ e) sink2 1
    | .okDone st2 sink2 => outerDRun prim rest st2 sink2

/-- Embedding of `ZstdFilter::decompressStream` (ZstdFilter.cc lines
172-205). -/
def decompressStream {σ : Type} (prim : DStreamPrim σ) (createOk : Bool)
    (chunks : List (List Byte)) : StreamOutcome :=
  if createOk then outerDRun prim chunks prim.init [] else .createFailed

/-- Embedding of `ZstdFilter::advancedCompressStream` (ZstdFilter.cc lines
273-321): its body is identical to `compressStream` except that the
incremental primitive is `ZSTD_compressStream` instead of
`ZSTD_compressStream2`, which is the `prim` parameter here. -/
def advancedCompressStream {σ : Type} (prim : CStreamPrim σ) (createOk : Bool)
    (chunks : List (List Byte)) : StreamOutcome :=
  compressStream prim createOk chunks

/-- Embedding of `ZstdFilter::advancedDecompressStream` (ZstdFilter.cc
lines 323-362): its body is identical to `decompressStream`. -/
def advancedDecompressStream {σ : Type} (prim : DStreamPrim σ) (createOk : Bool)
    (chunks : List (List Byte)) : StreamOutcome :=
  decompressStream prim createOk chunks

/-- Number of context releases recorded by a streaming outcome. -/
def freesOf : StreamOutcome → Nat
  | .createFailed => 0
  | .diverged _ => 0
  | .threw _ _ f => f
  | .done _ _ f => f

/-- Whether the streaming operation actually exited (returned or threw);
a diverged loop never reaches any exit path. -/
def isExit : StreamOutcome → Bool
  | .diverged _ => false
  | _ => true

/-- Number of contexts acquired: one when creation succeeded, none
otherwise. -/
def ctxAllocs (createOk : Bool) : Nat := if createOk then 1 else 0

/-- Streaming compressor of the toy codec: the context buffers all input
(consuming every offered byte, producing nothing) and the final call emits
the whole frame, so the streamed frame equals the one-shot frame. -/
def toyCPrim : CStreamPrim (List Byte) where
  init := []
  step st inp := .ok (st ++ inp, [], inp.length)
  finish st := .ok (st.length :: st)

/-- Streaming decompressor of the toy codec: the context is `none` until
the length header byte is read, then `some k` with `k` payload bytes still
outstanding; each call consumes what it can and emits the payload bytes it
saw.  A final state `some k` with `k > 0` means the frame was truncated. -/
def toyDStep : Option Nat → List Byte → Except String (Option Nat × List Byte × Nat)
  | none, [] => .ok (none, [], 0)
  | none, n :: rest => .ok (some (n - rest.length), rest.take n, 1 + min n rest.length)
  | some k, inp => .ok (some (k - inp.length), inp.take k, min k inp.length)

/-- The toy streaming decompressor packaged as a `DStreamPrim`. -/
def toyDPrim : DStreamPrim (Option Nat) where
  init := none
  step := toyDStep

/-- Every exit of the chunk loop of `compressStream` releases the
compression context exactly once: the epilogue frees it on both the
`ZSTD_endStream` error path and the fall-through path, and each in-loop
error path frees it before throwing. -/
theorem outerCRun_frees {σ : Type} (prim : CStreamPrim σ) :
    ∀ (chunks : List (List Byte)) (st : σ) (sink : List Byte),
      isExit (outerCRun prim chunks st sink) = true →
      freesOf (outerCRun prim chunks st sink) = 1 := by
  intro chunks
  induction chunks with
  | nil =>
    intro st sink h
    simp only [outerCRun]
    cases prim.finish st <;> rfl
  | cons c rest ih =>
    intro st sink h
    simp only [outerCRun] at h ⊢
    cases hinner : innerRun prim.step (c.length + 1) st c sink with
    | ranOut sink2 =>
      rw [hinner] at h
      simp [isExit] at h
    | err e sink2 => rfl
    | okDone st2 sink2 =>
      rw [hinner] at h
      exact ih st2 sink2 h

/-- Every exit of the chunk loop of `decompressStream` releases the
decompression context exactly once. -/
theorem outerDRun_frees {σ : Type} (prim : DStreamPrim σ) :
    ∀ (chunks : List (List Byte)) (st : σ) (sink : List Byte),
      isExit (outerDRun prim chunks st sink) = true →
      freesOf (outerDRun prim chunks st sink) = 1 := by
  intro chunks
  induction chunks with
  | nil =>
    intro st sink h
    rfl
  | cons c rest ih =>
    intro st sink h
    simp only [outerDRun] at h ⊢
    cases hinner : innerRun prim.step (c.length + 1) st c sink with
    | ranOut sink2 =>
      rw [hinner] at h
      simp [isExit] at h
    | err e sink2 => rfl
    | okDone st2 sink2 =>
      rw [hinner] at h
      exact ih st2 sink2 h

/-- C1: for every codec satisfying the zstd contracts and every payload,
one-shot decompression of the one-shot compression returns exactly the
payload: `decompressData (compressData P) = P`. -/
theorem C1_oneshot_roundtrip (lib : ZstdLib) (hs : ZstdSpec lib) (data : List Byte) :
    (compressData lib data).bind (decompressData lib) = .ok data := by
  have hsu := hs.compress_succeeds (lib.compressBound data.length) data COMPRESSION_LEVEL le_rfl
  cases hcmp : lib.compress (lib.compressBound data.length) data COMPRESSION_LEVEL with
  | error e =>
    rw [hcmp] at hsu
    simp [okPart] at hsu
  | ok frame =>
    have hor := hs.compress_size _ _ _ _ hcmp
    have hrt := hs.compress_roundtrip _ _ _ _ hcmp
    simp only [compressData, hcmp, Except.bind, decompressData, hor, hrt]

/-- Witness for C1 at the toy codec and the payload `[7, 7, 7]`. -/
theorem C1_oneshot_roundtrip_witness :
    (compressData toyLib [7, 7, 7]).bind (decompressData toyLib) = .ok [7, 7, 7] :=
  C1_oneshot_roundtrip toyLib toyLib_spec [7, 7, 7]

/-- C2: evaluation of the streaming functions at concrete inputs.  The
compressed (respectively decompressed) bytes are accumulated in the local
sink, yet both runs end in `done _ none _`: the function falls off the end
of a string-returning function without a return statement, so the caller
never receives the accumulated output — the completed operation discards
its result instead of delivering it. -/
theorem C2_stream_result_discarded :
    compressStream toyCPrim true [[1, 2, 3]] = .done [3, 1, 2, 3] none 1
    ∧ decompressStream toyDPrim true [[2, 4, 5]] = .done [4, 5] none 1 :=
  ⟨rfl, rfl⟩

/-- C3: for every codec satisfying the zstd contracts, when the oracle
reports `KnownSize n` the one-shot decompressor is invoked with a
destination of exactly `n` bytes and its error is surfaced as a
`Decompression error`, and any successfully returned payload has length
exactly `n` — never shorter or longer. -/
theorem C3_known_size_exact (lib : ZstdLib) (hs : ZstdSpec lib)
    (data d : List Byte) (n : Nat)
    (hn : lib.getFrameContentSize data = .KnownSize n)
    (hd : decompressData lib data = .ok d) :
    decompressData lib data =
      (match lib.decompress n data with
       | .error e => .error ("Decompression error: " ++ e)
       | .ok out => .ok out)
    ∧ d.length = n := by
  refine ⟨by simp only [decompressData, hn], ?_⟩
  simp only [decompressData, hn] at hd
  cases hdec : lib.decompress n data with
  | error e =>
    rw [hdec] at hd
    cases hd
  | ok out =>
    rw [hdec] at hd
    cases hd
    exact hs.decompress_exact n data d n hdec hn

/-- Witness for C3 at the toy codec on the frame `[2, 8, 9]`, whose header
declares size 2 and whose decompression yields the 2-byte payload
`[8, 9]`. -/
theorem C3_known_size_exact_witness :
    decompressData toyLib [2, 8, 9] =
      (match toyLib.decompress 2 [2, 8, 9] with
       | .error e => .error ("Decompression error: " ++ e)
       | .ok out => .ok out)
    ∧ ([8, 9] : List Byte).length = 2 :=
  C3_known_size_exact toyLib toyLib_spec [2, 8, 9] [8, 9] 2 rfl rfl

/-- C4: evaluation of `decompressStream` on a complete frame and on the
same frame with its final two bytes removed.  The full frame yields the
5-byte payload; the truncated frame ends input before the decoder signals
a complete frame, yet the run still finishes as `done` — the bytes seen so
far are accepted silently and no truncated-frame error is raised. -/
theorem C4_truncation_not_detected :
    decompressStream toyDPrim true [[5, 10, 20, 30, 40, 50]] =
      .done [10, 20, 30, 40, 50] none 1
    ∧ decompressStream toyDPrim true [[5, 10, 20, 30]] = .done [10, 20, 30] none 1 :=
  ⟨rfl, rfl⟩

/-- C5 counterexample: `decompressData` raises the same
`Invalid compressed data` error for a frame whose oracle result is
`UnknownSize` and for one whose oracle result is `InvalidFrame`, so the
two failure modes are not reported with distinct errors as claimed. -/
theorem C5_counterexample :
    toyLibU.getFrameContentSize [] = .UnknownSize
    ∧ toyLibU.getFrameContentSize [9] = .InvalidFrame
    ∧ decompressData toyLibU [] = .error "Invalid compressed data"
    ∧ decompressData toyLibU [9] = .error "Invalid compressed data" :=
  ⟨rfl, rfl, rfl, rfl⟩

/-- C5 (amended): on either oracle sentinel, one-shot decompression
rejects the frame with an error rather than crashing or truncating:
`decompressData` raises the single error `Invalid compressed data` for
both sentinels, while `advancedDecompressData` distinguishes them
(`Original size unknown` for `UnknownSize`, `Invalid data for
decompression` for `InvalidFrame`). -/
theorem C5_sentinel_rejection (lib : ZstdLib) (data : List Byte)
    (h : lib.getFrameContentSize data = .UnknownSize
        ∨ lib.getFrameContentSize data = .InvalidFrame) :
    decompressData lib data = .error "Invalid compressed data"
    ∧ advancedDecompressData lib data =
        .error (match lib.getFrameContentSize data with
                | .UnknownSize => "Original size unknown"
                | _ => "Invalid data for decompression") := by
  cases h with
  | inl h =>
    refine ⟨?_, ?_⟩
    · simp [decompressData, h]
    · simp [advancedDecompressData, advancedDecompressDataRun, h]
  | inr h =>
    refine ⟨?_, ?_⟩
    · simp [decompressData, h]
    · simp [advancedDecompressData, advancedDecompressDataRun, h]

/-- Witness for C5 on a frame whose oracle result is `UnknownSize`. -/
theorem C5_sentinel_rejection_witness :
    decompressData toyLibU [] = .error "Invalid compressed data"
    ∧ advancedDecompressData toyLibU [] =
        .error (match toyLibU.getFrameContentSize [] with
                | .UnknownSize => "Original size unknown"
                | _ => "Invalid data for decompression") :=
  C5_sentinel_rejection toyLibU [] (Or.inl rfl)

/-- C6: for every codec satisfying the zstd contracts, every frame
produced by `compressData` is at most `compressBound` of the input length
(the destination the source allocates), and compression into a destination
of exactly `compressBound` bytes succeeds at every level — the bound never
underestimates the worst case. -/
theorem C6_compressed_bound (lib : ZstdLib) (hs : ZstdSpec lib)
    (data frame : List Byte) (lvl : Int)
    (h : compressData lib data = .ok frame) :
    frame.length ≤ lib.compressBound data.length
    ∧ (okPart (lib.compress (lib.compressBound data.length) data lvl)).isSome = true := by
  refine ⟨?_, hs.compress_succeeds _ _ _ le_rfl⟩
  simp only [compressData] at h
  cases hcmp : lib.compress (lib.compressBound data.length) data COMPRESSION_LEVEL with
  | error e =>
    rw [hcmp] at h
    cases h
  | ok c =>
    rw [hcmp] at h
    cases h
    exact hs.compress_len _ _ _ _ hcmp

/-- Witness for C6 at the toy codec on the payload `[1, 2]` and level
19. -/
theorem C6_compressed_bound_witness :
    ([2, 1, 2] : List Byte).length ≤ toyLib.compressBound ([1, 2] : List Byte).length
    ∧ (okPart (toyLib.compress (toyLib.compressBound ([1, 2] : List Byte).length)
        [1, 2] 19)).isSome = true :=
  C6_compressed_bound toyLib toyLib_spec [1, 2] [2, 1, 2] 19 rfl

/-- C7: for every codec satisfying the zstd contracts, the content-size
oracle applied to a frame produced by `compressData` reports exactly the
original payload length. -/
theorem C7_oracle_agreement (lib : ZstdLib) (hs : ZstdSpec lib)
    (data frame : List Byte) (h : compressData lib data = .ok frame) :
    lib.getFrameContentSize frame = .KnownSize data.length := by
  simp only [compressData] at h
  cases hcmp : lib.compress (lib.compressBound data.length) data COMPRESSION_LEVEL with
  | error e =>
    rw [hcmp] at h
    cases h
  | ok c =>
    rw [hcmp] at h
    cases h
    exact hs.compress_size _ _ _ _ hcmp

/-- Witness for C7 at the toy codec on the payload `[5, 6]`. -/
theorem C7_oracle_agreement_witness :
    toyLib.getFrameContentSize [2, 5, 6] = .KnownSize ([5, 6] : List Byte).length :=
  C7_oracle_agreement toyLib toyLib_spec [5, 6] [2, 5, 6] rfl

/-- Every path of `advancedCompressData` frees the compression context
exactly as many times as it was acquired. -/
theorem advancedCompressDataRun_frees (lib : ZstdLib) (createOk : Bool)
    (data : List Byte) :
    (advancedCompressDataRun lib createOk data).2 = ctxAllocs createOk := by
  cases createOk with
  | false => rfl
  | true =>
    cases hcmp : lib.compress (lib.compressBound data.length) data COMPRESSION_LEVEL <;>
      simp [advancedCompressDataRun, ctxAllocs, hcmp]

/-- Every path of `advancedDecompressData` frees the decompression context
exactly as many times as it was acquired. -/
theorem advancedDecompressDataRun_frees (lib : ZstdLib) (createOk : Bool)
    (data : List Byte) :
    (advancedDecompressDataRun lib createOk data).2 = ctxAllocs createOk := by
  cases createOk with
  | false => rfl
  | true =>
    cases hfc : lib.getFrameContentSize data with
    | UnknownSize => simp [advancedDecompressDataRun, ctxAllocs, hfc]
    | InvalidFrame => simp [advancedDecompressDataRun, ctxAllocs, hfc]
    | KnownSize n =>
      cases hdec : lib.decompress n data <;>
        simp [advancedDecompressDataRun, ctxAllocs, hfc, hdec]

/-- C8: on every exit path of the streaming operations (success, codec
error at any chunk, or end of input) and of the advanced one-shot
operations, the acquired context is released exactly as many times as it
was acquired — once when creation succeeded, zero times when creation
itself failed — for every primitive behaviour and every input. -/
theorem C8_context_balance {σc σd : Type} (primC : CStreamPrim σc)
    (primD : DStreamPrim σd) (createOk : Bool) (chunks : List (List Byte))
    (lib : ZstdLib) (data : List Byte)
    (hC : isExit (compressStream primC createOk chunks) = true)
    (hD : isExit (decompressStream primD createOk chunks) = true) :
    freesOf (compressStream primC createOk chunks) = ctxAllocs createOk
    ∧ freesOf (decompressStream primD createOk chunks) = ctxAllocs createOk
    ∧ (advancedCompressDataRun lib createOk data).2 = ctxAllocs createOk
    ∧ (advancedDecompressDataRun lib createOk data).2 = ctxAllocs createOk := by
  cases createOk with
  | false => exact ⟨rfl, rfl, rfl, rfl⟩
  | true =>
    simp only [compressStream, if_true] at hC
    simp only [decompressStream, if_true] at hD
    exact ⟨outerCRun_frees primC chunks primC.init [] hC,
      outerDRun_frees primD chunks primD.init [] hD,
      advancedCompressDataRun_frees lib true data,
      advancedDecompressDataRun_frees lib true data⟩

/-- Witness for C8 at the toy streaming primitives on a two-chunk input
and the toy codec on a one-byte payload. -/
theorem C8_context_balance_witness :
    freesOf (compressStream toyCPrim true [[5, 10, 20], [30, 40, 50]]) = ctxAllocs true
    ∧ freesOf (decompressStream toyDPrim true [[5, 10, 20], [30, 40, 50]]) = ctxAllocs true
    ∧ (advancedCompressDataRun toyLib true [4]).2 = ctxAllocs true
    ∧ (advancedDecompressDataRun toyLib true [4]).2 = ctxAllocs true :=
  C8_context_balance toyCPrim toyDPrim true [[5, 10, 20], [30, 40, 50]] toyLib [4] rfl rfl

/-- C9: the basic and advanced one-shot variants are behaviorally
equivalent for every codec and every input: `advancedCompressData`
returns exactly what `compressData` returns (same level, same primitive,
same bound-sized destination), and `decompressData` and
`advancedDecompressData` succeed on exactly the same inputs with exactly
the same decompressed payload. -/
theorem C9_basic_advanced_equiv (lib : ZstdLib) (data : List Byte) :
    advancedCompressData lib data = compressData lib data
    ∧ okPart (advancedDecompressData lib data) = okPart (decompressData lib data) := by
  constructor
  · cases hcmp : lib.compress (lib.compressBound data.length) data COMPRESSION_LEVEL <;>
      simp [advancedCompressData, advancedCompressDataRun, compressData, hcmp]
  · cases hfc : lib.getFrameContentSize data with
    | UnknownSize =>
      simp [advancedDecompressData, advancedDecompressDataRun, decompressData, okPart, hfc]
    | InvalidFrame =>
      simp [advancedDecompressData, advancedDecompressDataRun, decompressData, okPart, hfc]
    | KnownSize n =>
      cases hdec : lib.decompress n data <;>
        simp [advancedDecompressData, advancedDecompressDataRun, decompressData, okPart,
          hfc, hdec]

/-- C10: for every codec and every HTTP response, the response-side
filter callback behaves exactly as the claim states: the body is replaced
by its compressed form with a `Content-Encoding: zstd` header appended
precisely when the content type is JSON, plain text or HTML, the body
exceeds 1024 bytes, and compression succeeds; in every other case —
wrong content type, a body of at most 1024 bytes (hence also an empty
body), or a compression error — the response is delivered unchanged. -/
theorem C10_response_gating (lib : ZstdLib) (resp : HttpResponse) :
    doFilterResponse lib resp = claimFilterResponse lib resp := by
  unfold doFilterResponse claimFilterResponse
  by_cases h : (resp.contentType = ContentType.CT_APPLICATION_JSON
      ∨ resp.contentType = ContentType.CT_TEXT_PLAIN
      ∨ resp.contentType = ContentType.CT_TEXT_HTML) ∧ 1024 < resp.body.length
  · have hb : shouldCompress resp = true := by
      simp only [shouldCompress, Bool.and_eq_true, Bool.or_eq_true, beq_iff_eq,
        decide_eq_true_eq]
      exact ⟨or_assoc.mpr h.1, h.2⟩
    have hne : resp.body.isEmpty = false := by
      cases hb2 : resp.body with
      | nil =>
        rw [hb2] at h
        exact absurd h.2 (by norm_num)
      | cons x xs => rfl
    rw [if_pos hb, if_pos h, if_neg (by simp [hne])]
  · have hb : ¬ shouldCompress resp = true := by
      simp only [shouldCompress, Bool.and_eq_true, Bool.or_eq_true, beq_iff_eq,
        decide_eq_true_eq]
      exact fun hc => h ⟨or_assoc.mp hc.1, hc.2⟩
    rw [if_neg hb, if_neg h]

end ZstdFilter
